import Mathlib

/-!
Verification development for the SponsorshipMatchingAPI repository.

The repository's visible source is `src/app.py`: a Flask app with a POST
`/leagues` route (league registration) and a GET `/leagues` route (budgeted,
radius-restricted league selection).  The app delegates to
`mongo/mongo_interface.py` (`get_leagues`, `add_league_to_db`),
`data_models/league.py` (`_verify_coordinates`, the `League` class) and
`error_handling/messages.py`, none of which are present under `src/`; those
parts are modelled here from the specification, as marked in the doc comments.
Numbers (Python floats/ints) are embedded as rationals, request dispatch as
pure functions, and raised exceptions as `Except` errors.
-/

namespace Sponsorship

/-- Python exception / API error kinds appearing in the app and the spec's
error taxonomy (§7): the spec's domain errors plus the built-in Python
exceptions that `src/app.py` raises or catches. -/
inductive ApiError where
  | invalidBudget
  | invalidRequest
  | invalidLeague
  | malformedCoordinate
  | valueError
  | attributeError
  | typeError
  | operationFailure
deriving DecidableEq, Repr

/-- A geographic coordinate pair `(latitude, longitude)`. -/
abbrev Coord := ℚ × ℚ

/-- A league record (spec §3): sponsorship candidate with a name, a price and
coordinates.  The `League` class itself lives in `data_models/league.py`,
which is not under `src/`; the field shape comes from the spec's data model. -/
structure League where
  name : String
  price : ℚ
  coordinates : Coord
deriving DecidableEq, Repr

/-- Comparison of leagues by price, the sort order used by the selector. -/
def priceLE (a b : League) : Prop := a.price ≤ b.price

instance : DecidableRel priceLE :=
  fun a b => inferInstanceAs (Decidable (a.price ≤ b.price))

instance : IsTotal League priceLE := ⟨fun a b => le_total a.price b.price⟩

instance : IsTrans League priceLE := ⟨fun _ _ _ h₁ h₂ => le_trans h₁ h₂⟩

/-- Sum of the prices of a list of leagues. -/
def sumPrices (l : List League) : ℚ := (l.map League.price).sum

/-- Modelled from the spec: the Budget Selector's sort phase
(`mongo/mongo_interface.py` is not under `src/`).  Spec §4.2: "sort candidates
ascending by `price` (stable sort; ties broken by original input order)".
Insertion sort with the reflexive `≤` comparison is such a stable sort. -/
def sortByPrice (candidates : List League) : List League :=
  List.insertionSort priceLE candidates

/-- Modelled from the spec: the Budget Selector's greedy scan
(`mongo/mongo_interface.py` is not under `src/`).  Spec §4.2: accept a
candidate while the accepted prices still fit in the budget, otherwise skip it
and continue; expressed with the remaining budget as the accumulator. -/
def greedyAccept : List League → ℚ → List League
  | [], _ => []
  | c :: rest, budget =>
    if c.price ≤ budget then c :: greedyAccept rest (budget - c.price)
    else greedyAccept rest budget

/-- Modelled from the spec: the Budget Selector (`select` of spec §4.2;
`mongo/mongo_interface.py` is not under `src/`): sort ascending by price,
greedily accept, report the selection and the unspent remainder. -/
def budgetSelect (candidates : List League) (total_budget : ℚ) :
    List League × ℚ :=
  let selected := greedyAccept (sortByPrice candidates) total_budget
  (selected, total_budget - sumPrices selected)

/-- Modelled from the spec: the Geospatial Filter (spec §4.1;
`mongo/mongo_interface.py` is not under `src/`): keep exactly the candidates
whose distance to the center is at most the radius, preserving input order.
The distance function is a parameter (`dist`), as the spec fixes only its
interface ("an implementer may substitute an equivalent metric"). -/
def geoFilter (dist : Coord → Coord → ℚ) (center : Coord) (radius : ℚ)
    (candidates : List League) : List League :=
  candidates.filter (fun c => dist center c.coordinates ≤ radius)

/-- Validity of a latitude/longitude pair (spec §3): latitude in [−90, 90]
and longitude in [−180, 180]. -/
def validLatLon (c : Coord) : Prop :=
  -90 ≤ c.1 ∧ c.1 ≤ 90 ∧ -180 ≤ c.2 ∧ c.2 ≤ 180

instance : DecidablePred validLatLon := fun c => by
  unfold validLatLon
  infer_instance

/-- Modelled from the spec: `get_leagues` of `mongo/mongo_interface.py`
(not under `src/`), the `SelectLeagues` operation of spec §6: validate the
request (`InvalidBudgetError` on a negative budget — spec §4.2 and scenario 5 —
then `InvalidRequestError` on a negative radius, then the central coordinate's
range), run the Geospatial Filter, then the Budget Selector.  The candidate
snapshot and the distance metric are parameters: the persistence collaborator
supplies the snapshot (spec §6). -/
def get_leagues (dist : Coord → Coord → ℚ) (candidates : List League)
    (total_budget search_radius : ℚ) (central_location : Coord) :
    Except ApiError (List League × ℚ) :=
  if total_budget < 0 then .error .invalidBudget
  else if search_radius < 0 then .error .invalidRequest
  else if validLatLon central_location then
    .ok (budgetSelect
      (geoFilter dist central_location search_radius candidates) total_budget)
  else .error .malformedCoordinate

/-- Modelled from the spec: the reference scan of the Budget Selector stated
with an explicit running sum of accepted prices ("the running sum of accepted
prices remains ≤ `total_budget`", spec §4.2); `acc` is the sum accepted so
far.  This is the second, spec-worded formulation, compared with
`greedyAccept` below. -/
def scanAccum : List League → ℚ → ℚ → List League
  | [], _, _ => []
  | c :: rest, budget, acc =>
    if acc + c.price ≤ budget then c :: scanAccum rest budget (acc + c.price)
    else scanAccum rest budget acc

/-- Reference algorithm in the spec's words: stable sort ascending by price,
then scan accepting while the running sum of accepted prices stays within the
budget. -/
def selectReference (candidates : List League) (b : ℚ) : List League :=
  scanAccum (sortByPrice candidates) b 0

theorem sumPrices_nil : sumPrices [] = 0 := rfl

theorem sumPrices_cons (c : League) (l : List League) :
    sumPrices (c :: l) = c.price + sumPrices l := by
  simp [sumPrices]

theorem sumPrices_perm {l₁ l₂ : List League} (h : l₁.Perm l₂) :
    sumPrices l₁ = sumPrices l₂ :=
  (h.map League.price).sum_eq

theorem sumPrices_nonneg {l : List League} (h : ∀ c ∈ l, 0 ≤ c.price) :
    0 ≤ sumPrices l := by
  apply List.sum_nonneg
  intro x hx
  obtain ⟨c, hc, rfl⟩ := List.mem_map.mp hx
  exact h c hc

theorem mem_le_sumPrices {l : List League} {c : League} (hc : c ∈ l)
    (h : ∀ x ∈ l, 0 ≤ x.price) : c.price ≤ sumPrices l := by
  apply List.single_le_sum (l := l.map League.price)
  · intro x hx
    obtain ⟨d, hd, rfl⟩ := List.mem_map.mp hx
    exact h d hd
  · exact List.mem_map.mpr ⟨c, hc, rfl⟩

/-- The greedy scan never spends more than the budget. -/
theorem greedyAccept_cost : ∀ (l : List League) (b : ℚ), 0 ≤ b →
    sumPrices (greedyAccept l b) ≤ b := by
  intro l
  induction l with
  | nil => intro b hb; simpa [greedyAccept, sumPrices] using hb
  | cons c rest ih =>
    intro b hb
    rw [greedyAccept]
    by_cases hcb : c.price ≤ b
    · rw [if_pos hcb, sumPrices_cons]
      have := ih (b - c.price) (by linarith)
      linarith
    · rw [if_neg hcb]
      exact ih b hb

theorem multiset_le_of_cons_not_mem {c : League} {T rest : List League}
    (hcT : c ∉ T)
    (hle : (T : Multiset League) ≤ ((c :: rest : List League) : Multiset League)) :
    (T : Multiset League) ≤ (rest : Multiset League) := by
  rw [Multiset.le_iff_count] at hle ⊢
  intro a
  have ha := hle a
  rcases eq_or_ne a c with rfl | hne
  · have hz : Multiset.count a (T : Multiset League) = 0 := by
      rw [Multiset.count_eq_zero]
      simpa using hcT
    simp [hz]
  · rwa [← Multiset.cons_coe, Multiset.count_cons_of_ne hne] at ha

/-- Key optimality invariant of the greedy scan: on a price-sorted list of
non-negatively priced leagues, no sub-multiset of the list that fits in the
budget is larger than the greedy selection. -/
theorem greedyAccept_maximal : ∀ (l : List League) (b : ℚ) (T : List League),
    List.Sorted priceLE l → (∀ c ∈ l, 0 ≤ c.price) →
    (T : Multiset League) ≤ (l : Multiset League) →
    sumPrices T ≤ b → T.length ≤ (greedyAccept l b).length := by
  intro l
  induction l with
  | nil =>
    intro b T _ _ hle _
    have : T = [] := by simpa using hle
    simp [this, greedyAccept]
  | cons c rest ih =>
    intro b T hsort hpos hle hsum
    have hsrest : List.Sorted priceLE rest := (List.sorted_cons.mp hsort).2
    have hhead : ∀ x ∈ rest, priceLE c x := (List.sorted_cons.mp hsort).1
    have hpr : ∀ x ∈ rest, 0 ≤ x.price :=
      fun x hx => hpos x (List.mem_cons_of_mem _ hx)
    have hTmem : ∀ x ∈ T, x ∈ c :: rest := by
      intro x hx
      have hsub := Multiset.subset_of_le hle
      simpa using hsub (by simpa using hx)
    have hTpos : ∀ x ∈ T, 0 ≤ x.price := fun x hx => hpos x (hTmem x hx)
    rw [greedyAccept]
    by_cases hcb : c.price ≤ b
    · rw [if_pos hcb]
      by_cases hcT : c ∈ T
      · have hperm : T.Perm (c :: T.erase c) := List.perm_cons_erase hcT
        have hsum' : sumPrices (T.erase c) ≤ b - c.price := by
          have hs := sumPrices_perm hperm
          rw [sumPrices_cons] at hs
          linarith [hs ▸ hsum]
        have hle' : ((T.erase c : List League) : Multiset League) ≤
            (rest : Multiset League) := by
          have h₂ := Multiset.erase_le_erase c hle
          rwa [Multiset.coe_erase, ← Multiset.cons_coe,
            Multiset.erase_cons_head] at h₂
        have hlen := List.length_erase_add_one hcT
        have := ih (b - c.price) (T.erase c) hsrest hpr hle' hsum'
        simp only [List.length_cons]
        omega
      · have hle' : (T : Multiset League) ≤ (rest : Multiset League) :=
          multiset_le_of_cons_not_mem hcT hle
        cases T with
        | nil => simp
        | cons t T' =>
          have htrest : t ∈ rest := by
            have : t ∈ (rest : Multiset League) :=
              Multiset.mem_of_le hle' (by simp)
            simpa using this
          have htp : c.price ≤ t.price := hhead t htrest
          have hle'' : (T' : Multiset League) ≤ (rest : Multiset League) := by
            refine le_trans ?_ hle'
            rw [Multiset.coe_le]
            exact (List.sublist_cons_self t T').subperm
          have hsum'' : sumPrices T' ≤ b - c.price := by
            rw [sumPrices_cons] at hsum
            linarith
          have := ih (b - c.price) T' hsrest hpr hle'' hsum''
          simpa using Nat.succ_le_succ this
    · rw [if_neg hcb]
      push_neg at hcb
      by_cases hcT : c ∈ T
      · exfalso
        have h₁ : c.price ≤ sumPrices T := mem_le_sumPrices hcT hTpos
        linarith
      · exact ih b T hsrest hpr (multiset_le_of_cons_not_mem hcT hle) hsum

/-- The accumulator formulation of the scan agrees with the remaining-budget
formulation. -/
theorem scanAccum_eq_greedyAccept : ∀ (l : List League) (budget acc : ℚ),
    scanAccum l budget acc = greedyAccept l (budget - acc) := by
  intro l
  induction l with
  | nil => intro budget acc; rfl
  | cons c rest ih =>
    intro budget acc
    rw [scanAccum, greedyAccept]
    by_cases h : acc + c.price ≤ budget
    · rw [if_pos h, if_pos (by linarith), ih]
      congr 1
      ring_nf
    · rw [if_neg h, if_neg (fun hc => h (by linarith)), ih]

/-- The sort phase is a permutation of the candidates that is sorted by
price. -/
theorem sortByPrice_perm (candidates : List League) :
    (sortByPrice candidates).Perm candidates :=
  List.perm_insertionSort priceLE candidates

theorem sortByPrice_sorted (candidates : List League) :
    List.Sorted priceLE (sortByPrice candidates) :=
  List.sorted_insertionSort priceLE candidates

/-- C1: For every sequence of candidate leagues with non-negative prices and
every total_budget ≥ 0, the subset returned by the budget selection operation
has cost ≤ total_budget, and no other subset of the candidates with total
price ≤ total_budget contains strictly more leagues than the returned
subset. -/
theorem selector_optimal (candidates : List League) (b : ℚ)
    (hpos : ∀ c ∈ candidates, 0 ≤ c.price) (hb : 0 ≤ b) :
    sumPrices (budgetSelect candidates b).1 ≤ b ∧
    ∀ T : List League, T.Sublist candidates → sumPrices T ≤ b →
      T.length ≤ (budgetSelect candidates b).1.length := by
  have hperm := sortByPrice_perm candidates
  constructor
  · exact greedyAccept_cost _ b hb
  · intro T hT hsumT
    apply greedyAccept_maximal (sortByPrice candidates) b T
      (sortByPrice_sorted candidates)
    · intro c hc
      exact hpos c (hperm.mem_iff.mp hc)
    · rw [Multiset.coe_le]
      exact hT.subperm.trans hperm.symm.subperm
    · exact hsumT

/-- Witness for C1 at spec scenario 1: candidates priced 10 and 15, budget
20; the greedy selection keeps only the league priced 10 and no feasible
subset is larger. -/
theorem selector_optimal_witness :
    (∀ c ∈ [League.mk "A" 10 (0, 0), League.mk "B" 15 (0, 0)], 0 ≤ c.price) ∧
    (0 : ℚ) ≤ 20 ∧
    (sumPrices (budgetSelect [League.mk "A" 10 (0, 0),
        League.mk "B" 15 (0, 0)] 20).1 ≤ 20 ∧
      ∀ T : List League,
        T.Sublist [League.mk "A" 10 (0, 0), League.mk "B" 15 (0, 0)] →
        sumPrices T ≤ 20 →
        T.length ≤ (budgetSelect [League.mk "A" 10 (0, 0),
          League.mk "B" 15 (0, 0)] 20).1.length) :=
  ⟨by decide, by decide,
    selector_optimal [League.mk "A" 10 (0, 0), League.mk "B" 15 (0, 0)] 20
      (by decide) (by decide)⟩

/-- C2: For every candidate sequence and total_budget ≥ 0, the budget
selection operation equals the reference algorithm: stably sort ascending by
price, scan accepting each candidate whose price keeps the running sum of
accepted prices ≤ total_budget; the selected sequence is the accepted
candidates in sorted order. -/
theorem selector_matches_reference (candidates : List League) (b : ℚ)
    (hb : 0 ≤ b) :
    (budgetSelect candidates b).1 = selectReference candidates b ∧
    (budgetSelect candidates b).2 =
      b - sumPrices (selectReference candidates b) := by
  have h : selectReference candidates b =
      greedyAccept (sortByPrice candidates) b := by
    rw [selectReference, scanAccum_eq_greedyAccept, sub_zero]
  exact ⟨by rw [budgetSelect, h], by rw [budgetSelect, h]⟩

/-- Witness for C2 on spec scenario 1's candidates with budget 20. -/
theorem selector_matches_reference_witness :
    (0 : ℚ) ≤ 20 ∧
    ((budgetSelect [League.mk "A" 10 (0, 0), League.mk "B" 15 (0, 0)] 20).1 =
        selectReference [League.mk "A" 10 (0, 0), League.mk "B" 15 (0, 0)] 20 ∧
      (budgetSelect [League.mk "A" 10 (0, 0), League.mk "B" 15 (0, 0)] 20).2 =
        20 - sumPrices (selectReference [League.mk "A" 10 (0, 0),
          League.mk "B" 15 (0, 0)] 20)) :=
  ⟨by decide,
    selector_matches_reference
      [League.mk "A" 10 (0, 0), League.mk "B" 15 (0, 0)] 20 (by decide)⟩

/-- C3: For every selection request that succeeds, the returned
remaining_budget equals total_budget minus the sum of the prices of the
selected leagues, and remaining_budget ≥ 0; an empty candidate set yields an
empty selection and remaining_budget = total_budget. -/
theorem budget_conservation (dist : Coord → Coord → ℚ) (cands : List League)
    (b r : ℚ) (c : Coord) (sel : List League) (rem : ℚ)
    (h : get_leagues dist cands b r c = .ok (sel, rem)) :
    rem = b - sumPrices sel ∧ 0 ≤ rem ∧
      (cands = [] → sel = [] ∧ rem = b) := by
  rw [get_leagues] at h
  split_ifs at h with h₁ h₂ h₃
  have hok : budgetSelect (geoFilter dist c r cands) b = (sel, rem) :=
    Except.ok.inj h
  have hsel : sel = greedyAccept (sortByPrice (geoFilter dist c r cands)) b := by
    have hfst := congrArg Prod.fst hok
    simpa [budgetSelect] using hfst.symm
  have hrem : rem = b - sumPrices sel := by
    have hsnd := congrArg Prod.snd hok
    rw [hsel]
    simpa [budgetSelect] using hsnd.symm
  have hb : 0 ≤ b := not_lt.mp h₁
  refine ⟨hrem, ?_, ?_⟩
  · have hcost := greedyAccept_cost (sortByPrice (geoFilter dist c r cands)) b hb
    rw [hrem, hsel]
    linarith
  · intro hnil
    subst hnil
    have hsel' : sel = [] := by
      simpa [geoFilter, sortByPrice, greedyAccept] using hsel
    refine ⟨hsel', ?_⟩
    rw [hrem, hsel', sumPrices_nil, sub_zero]

/-- Witness for C3: an empty candidate snapshot with budget 20 succeeds,
selects nothing and keeps the whole budget. -/
theorem budget_conservation_witness :
    get_leagues (fun _ _ => 0) [] 20 5 (0, 0) =
      .ok ([], 20 - sumPrices []) ∧
    ((20 - sumPrices [] : ℚ) = 20 - sumPrices [] ∧
      (0 : ℚ) ≤ 20 - sumPrices [] ∧
      (([] : List League) = [] →
        ([] : List League) = [] ∧ (20 - sumPrices [] : ℚ) = 20)) :=
  have h : get_leagues (fun _ _ => 0) [] 20 5 (0, 0) =
      .ok ([], 20 - sumPrices []) := rfl
  ⟨h, budget_conservation (fun _ _ => 0) [] 20 5 (0, 0) [] (20 - sumPrices []) h⟩

/-- C4: For every candidate sequence, valid center coordinate and radius ≥ 0,
the geospatial filter returns exactly those candidates whose distance to the
center is ≤ radius, excludes every candidate whose distance is > radius, and
preserves the input order of the retained candidates. -/
theorem filter_correct (dist : Coord → Coord → ℚ) (center : Coord)
    (radius : ℚ) (candidates : List League)
    (hc : validLatLon center) (hr : 0 ≤ radius) :
    (geoFilter dist center radius candidates).Sublist candidates ∧
    (∀ c ∈ geoFilter dist center radius candidates,
      dist center c.coordinates ≤ radius) ∧
    (∀ c ∈ candidates, dist center c.coordinates ≤ radius →
      c ∈ geoFilter dist center radius candidates) ∧
    (∀ c ∈ candidates, radius < dist center c.coordinates →
      c ∉ geoFilter dist center radius candidates) := by
  refine ⟨List.filter_sublist candidates, ?_, ?_, ?_⟩
  · intro c hcf
    have := List.mem_filter.mp hcf
    simpa using this.2
  · intro c hcand hdist
    exact List.mem_filter.mpr ⟨hcand, by simpa using hdist⟩
  · intro c _ hdist hcf
    have := List.mem_filter.mp hcf
    have hle : dist center c.coordinates ≤ radius := by simpa using this.2
    exact absurd hle (not_le.mpr hdist)

/-- Witness for C4 around spec scenario 3: a single candidate at distance 10
from the center with radius 5. -/
theorem filter_correct_witness :
    validLatLon (0, 0) ∧ (0 : ℚ) ≤ 5 ∧
    ((geoFilter (fun _ _ => 10) (0, 0) 5
        [League.mk "A" 5 (1, 1)]).Sublist [League.mk "A" 5 (1, 1)] ∧
      (∀ c ∈ geoFilter (fun _ _ => 10) (0, 0) 5 [League.mk "A" 5 (1, 1)],
        (fun _ _ => (10 : ℚ)) (0, 0) c.coordinates ≤ 5) ∧
      (∀ c ∈ [League.mk "A" 5 (1, 1)],
        (fun _ _ => (10 : ℚ)) (0, 0) c.coordinates ≤ 5 →
        c ∈ geoFilter (fun _ _ => 10) (0, 0) 5 [League.mk "A" 5 (1, 1)]) ∧
      (∀ c ∈ [League.mk "A" 5 (1, 1)],
        5 < (fun _ _ => (10 : ℚ)) (0, 0) c.coordinates →
        c ∉ geoFilter (fun _ _ => 10) (0, 0) 5 [League.mk "A" 5 (1, 1)])) :=
  ⟨by decide, by decide,
    filter_correct (fun _ _ => 10) (0, 0) 5 [League.mk "A" 5 (1, 1)]
      (by decide) (by decide)⟩

/-- C5: A selection request with total_budget < 0 fails with
InvalidBudgetError: no coercion and no partial result. -/
theorem negative_budget_rejected (dist : Coord → Coord → ℚ)
    (cands : List League) (b r : ℚ) (c : Coord) (hb : b < 0) :
    get_leagues dist cands b r c = .error .invalidBudget := by
  rw [get_leagues, if_pos hb]

/-- Witness for C5 at spec scenario 5: total_budget = −1. -/
theorem negative_budget_rejected_witness :
    (-1 : ℚ) < 0 ∧
    get_leagues (fun _ _ => 0) [League.mk "A" 10 (0, 0)] (-1) 5 (0, 0) =
      .error .invalidBudget :=
  ⟨by decide,
    negative_budget_rejected (fun _ _ => 0) [League.mk "A" 10 (0, 0)]
      (-1) 5 (0, 0) (by decide)⟩

/-- C8: The selection operation is deterministic: identical candidate
sequences (in the same order) and identical request parameters produce the
same selected sequence and remaining budget. -/
theorem selection_deterministic (dist : Coord → Coord → ℚ)
    (cs₁ cs₂ : List League) (b₁ b₂ r₁ r₂ : ℚ) (c₁ c₂ : Coord)
    (hcs : cs₁ = cs₂) (hb : b₁ = b₂) (hr : r₁ = r₂) (hc : c₁ = c₂) :
    get_leagues dist cs₁ b₁ r₁ c₁ = get_leagues dist cs₂ b₂ r₂ c₂ := by
  rw [hcs, hb, hr, hc]

/-- Witness for C8 on two identical concrete requests. -/
theorem selection_deterministic_witness :
    get_leagues (fun _ _ => 0) [League.mk "A" 10 (0, 0)] 20 5 (0, 0) =
      get_leagues (fun _ _ => 0) [League.mk "A" 10 (0, 0)] 20 5 (0, 0) :=
  selection_deterministic (fun _ _ => 0) [League.mk "A" 10 (0, 0)]
    [League.mk "A" 10 (0, 0)] 20 20 5 5 (0, 0) (0, 0) rfl rfl rfl rfl

/-- Embedded Python values for the JSON / query-string request layer. -/
inductive PyVal where
  | pyNone
  | pyInt (n : ℤ)
  | pyFloat (q : ℚ)
  | pyStr (s : String)
  | pyList (xs : List PyVal)

/-- A Python value read as a number, when it is numeric. -/
def PyVal.asNum : PyVal → Option ℚ
  | .pyInt n => some (n : ℚ)
  | .pyFloat q => some q
  | _ => none

/-- Modelled from the spec: `_verify_coordinates` of `data_models/league.py`
(not under `src/`).  Spec §4.3: a coordinate pair is valid iff it has exactly
two numeric components, latitude ∈ [−90, 90] and longitude ∈ [−180, 180];
it fails with `MalformedCoordinateError` on wrong arity, non-numeric
components or out-of-range values. -/
def _verify_coordinates : List PyVal → Except ApiError Coord
  | [a, b] =>
    match a.asNum, b.asNum with
    | some la, some lo =>
      if validLatLon (la, lo) then .ok (la, lo)
      else .error .malformedCoordinate
    | _, _ => .error .malformedCoordinate
  | _ => .error .malformedCoordinate

/-- The spec's validity condition on a raw coordinate value, stated in its
own words: exactly two components, both numeric, latitude and longitude in
range. -/
def specValidCoordinate (v : List PyVal) : Prop :=
  ∃ a b la lo, v = [a, b] ∧ a.asNum = some la ∧ b.asNum = some lo ∧
    validLatLon (la, lo)

theorem verify_coordinates_ok_iff (v : List PyVal) :
    (∃ p, _verify_coordinates v = .ok p) ↔ specValidCoordinate v := by
  constructor
  · rintro ⟨p, hp⟩
    match v with
    | [] => simp [_verify_coordinates] at hp
    | [a] => simp [_verify_coordinates] at hp
    | a :: b :: c :: rest => simp [_verify_coordinates] at hp
    | [a, b] =>
      rw [_verify_coordinates] at hp
      split at hp
      · rename_i la lo ha hb
        split_ifs at hp with hrange
        exact ⟨a, b, la, lo, rfl, ha, hb, hrange⟩
      · simp at hp
  · rintro ⟨a, b, la, lo, rfl, ha, hb, hrange⟩
    exact ⟨(la, lo), by simp [_verify_coordinates, ha, hb, hrange]⟩

theorem verify_coordinates_error {v : List PyVal}
    (h : ¬ specValidCoordinate v) :
    _verify_coordinates v = .error .malformedCoordinate := by
  match v with
  | [] => rfl
  | [a] => rfl
  | a :: b :: c :: rest => rfl
  | [a, b] =>
    rw [_verify_coordinates]
    split
    · rename_i la lo ha hb
      exact if_neg fun hrange => h ⟨a, b, la, lo, rfl, ha, hb, hrange⟩
    · rfl

/-- C7: coordinate validation accepts a raw coordinate value iff it has
exactly two numeric components with latitude in [−90, 90] and longitude in
[−180, 180], and fails with MalformedCoordinateError on wrong arity,
non-numeric components or out-of-range values. -/
theorem coordinate_validation (v : List PyVal) :
    ((∃ p, _verify_coordinates v = .ok p) ↔ specValidCoordinate v) ∧
    (¬ specValidCoordinate v →
      _verify_coordinates v = .error .malformedCoordinate) :=
  ⟨verify_coordinates_ok_iff v, fun h => verify_coordinates_error h⟩

/-- Witness for C7: the origin as a valid pair, and the empty value (wrong
arity) rejected with MalformedCoordinateError. -/
theorem coordinate_validation_witness :
    ((∃ p, _verify_coordinates [PyVal.pyInt 0, PyVal.pyInt 0] = .ok p) ↔
      specValidCoordinate [PyVal.pyInt 0, PyVal.pyInt 0]) ∧
    _verify_coordinates [] = .error .malformedCoordinate :=
  ⟨(coordinate_validation [PyVal.pyInt 0, PyVal.pyInt 0]).1,
    (coordinate_validation []).2
      (by rintro ⟨a, b, la, lo, habs, _⟩; exact absurd habs (by simp))⟩

/-- The json branch of `_create_leagues_helper` in `src/app.py`: read the
fields, verify the coordinates, then reject falsy values with `ValueError`
(`if not league_name or not price or not coordinates: raise ValueError` —
Python falsiness of the typed fields: empty string, zero number, empty list;
a verified coordinate pair always has two components, so its falsiness check
never fires). -/
def _create_leagues_helper (league_name : String) (price : ℚ)
    (coordinates : List PyVal) : Except ApiError (String × ℚ × Coord) :=
  match _verify_coordinates coordinates with
  | .error e => .error e
  | .ok c =>
    if league_name = "" ∨ price = 0 then .error .valueError
    else .ok (league_name, price, c)

/-- Modelled from the spec: League construction / `add_league_to_db`
(`data_models/league.py` and `mongo/mongo_interface.py` are not under
`src/`).  Spec §4.3: a League registration requires a non-empty `name` and a
strictly positive `price`, and fails with `InvalidLeagueError` otherwise. -/
def league_new (name : String) (price : ℚ) (coords : Coord) :
    Except ApiError League :=
  if name ≠ "" ∧ 0 < price then .ok (League.mk name price coords)
  else .error .invalidLeague

/-- The registration operation of the POST `/leagues` route: the request
helper from `src/app.py` followed by League construction/storage. -/
def registerLeague (league_name : String) (price : ℚ)
    (coordinates : List PyVal) : Except ApiError League :=
  match _create_leagues_helper league_name price coordinates with
  | .error e => .error e
  | .ok (n, p, c) => league_new n p c

/-- Counterexample to C6 as stated: registering with an empty name, valid
coordinates and positive price fails with the request helper's ValueError,
not with InvalidLeagueError. -/
theorem registration_error_kind_counterexample :
    registerLeague "" 5 [PyVal.pyInt 0, PyVal.pyInt 0] =
      .error .valueError ∧
    (Except.error ApiError.valueError : Except ApiError League) ≠
      .error .invalidLeague :=
  ⟨rfl, fun h => ApiError.noConfusion (Except.error.inj h)⟩

/-- C6 amended: registration succeeds exactly when the coordinates are valid,
the name is non-empty and the price strictly positive; with valid
coordinates, an empty name or a zero price fails with ValueError from the
request helper's falsiness check, while a negative price with a non-empty
name fails with InvalidLeagueError from League construction. -/
theorem registration_validation (league_name : String) (price : ℚ)
    (coordinates : List PyVal) :
    ((∃ L, registerLeague league_name price coordinates = .ok L) ↔
      specValidCoordinate coordinates ∧ league_name ≠ "" ∧ 0 < price) ∧
    (specValidCoordinate coordinates → league_name = "" ∨ price = 0 →
      registerLeague league_name price coordinates = .error .valueError) ∧
    (specValidCoordinate coordinates → league_name ≠ "" → price < 0 →
      registerLeague league_name price coordinates =
        .error .invalidLeague) := by
  rcases hv : _verify_coordinates coordinates with e | c
  · have hnv : ¬ specValidCoordinate coordinates := by
      intro hs
      obtain ⟨p, hp⟩ := (verify_coordinates_ok_iff coordinates).mpr hs
      rw [hv] at hp
      exact Except.noConfusion hp
    refine ⟨?_, fun hs => absurd hs hnv, fun hs => absurd hs hnv⟩
    simp only [registerLeague, _create_leagues_helper, hv]
    constructor
    · rintro ⟨L, hL⟩
      exact absurd hL (by simp)
    · rintro ⟨hs, -⟩
      exact absurd hs hnv
  · have hsv : specValidCoordinate coordinates :=
      (verify_coordinates_ok_iff coordinates).mp ⟨c, hv⟩
    by_cases hfalsy : league_name = "" ∨ price = 0
    · refine ⟨?_, fun _ _ => ?_, fun _ hn hp => ?_⟩
      · simp only [registerLeague, _create_leagues_helper, hv, if_pos hfalsy]
        constructor
        · rintro ⟨L, hL⟩
          exact absurd hL (by simp)
        · rintro ⟨-, hn, hp⟩
          rcases hfalsy with h | h
          · exact absurd h hn
          · exact absurd h (by linarith)
      · simp only [registerLeague, _create_leagues_helper, hv, if_pos hfalsy]
      · rcases hfalsy with h | h
        · exact absurd h hn
        · exact absurd h (by linarith)
    · push_neg at hfalsy
      refine ⟨?_, fun _ hf => ?_, fun _ hn hp => ?_⟩
      · simp only [registerLeague, _create_leagues_helper, hv,
          if_neg (not_or.mpr ⟨hfalsy.1, hfalsy.2⟩), league_new]
        by_cases hpos : league_name ≠ "" ∧ 0 < price
        · rw [if_pos hpos]
          exact ⟨fun _ => ⟨hsv, hpos.1, hpos.2⟩, fun _ => ⟨_, rfl⟩⟩
        · rw [if_neg hpos]
          constructor
          · rintro ⟨L, hL⟩
            exact absurd hL (by simp)
          · rintro ⟨-, hn, hp⟩
            exact absurd ⟨hn, hp⟩ hpos
      · rcases hf with h | h
        · exact absurd h hfalsy.1
        · exact absurd h hfalsy.2
      · simp only [registerLeague, _create_leagues_helper, hv,
          if_neg (not_or.mpr ⟨hfalsy.1, hfalsy.2⟩), league_new,
          if_neg (fun hpos : league_name ≠ "" ∧ 0 < price => by
            linarith [hpos.2])]

/-- Witness for C6's amended claim: with valid coordinates, non-empty name
and negative price the registration fails with InvalidLeagueError, and the
success characterization holds at that input. -/
theorem registration_validation_witness :
    ((∃ L, registerLeague "x" (-3) [PyVal.pyInt 0, PyVal.pyInt 0] = .ok L) ↔
      specValidCoordinate [PyVal.pyInt 0, PyVal.pyInt 0] ∧
        "x" ≠ "" ∧ (0 : ℚ) < -3) ∧
    registerLeague "x" (-3) [PyVal.pyInt 0, PyVal.pyInt 0] =
      .error .invalidLeague :=
  ⟨(registration_validation "x" (-3) [PyVal.pyInt 0, PyVal.pyInt 0]).1,
    (registration_validation "x" (-3) [PyVal.pyInt 0, PyVal.pyInt 0]).2.2
      ⟨PyVal.pyInt 0, PyVal.pyInt 0, 0, 0, rfl, rfl, rfl, by decide⟩
      (by decide) (by decide)⟩

/-- ASCII whitespace trim on a character list (both ends), the `strip` step
of Python's numeric string conversions. -/
def trimChars (cs : List Char) : List Char :=
  ((cs.dropWhile Char.isWhitespace).reverse.dropWhile Char.isWhitespace).reverse

/-- Value of a run of decimal digits. -/
def digitsVal (ds : List Char) : ℕ :=
  ds.foldl (fun a d => a * 10 + (d.toNat - 48)) 0

/-- Python `int(str)` as invoked by werkzeug's `type=int` conversion,
modelled for ASCII decimal forms: surrounding whitespace is ignored, then an
optional sign and a non-empty digit run; any other shape (a fractional
literal such as "12.5", an empty string, ...) raises ValueError, modelled as
`none`. -/
def pyParseInt (s : String) : Option ℤ :=
  match trimChars s.toList with
  | [] => none
  | c :: cs =>
    let sign : ℤ := if c = '-' then -1 else 1
    let ds := if c = '-' ∨ c = '+' then cs else c :: cs
    if ds ≠ [] ∧ ds.all Char.isDigit then some (sign * digitsVal ds)
    else none

/-- werkzeug's `args.get(key, type=int)` as used in `_get_leagues_helper` of
`src/app.py`: a missing parameter yields the default `None`; a present value
is converted with Python `int`, a conversion failure being caught and
replaced by the default `None`. -/
def argInt (args : String → Option String) (key : String) : PyVal :=
  match args key with
  | none => .pyNone
  | some s =>
    match pyParseInt s with
    | none => .pyNone
    | some n => .pyInt n

/-- Python `float(str)` modelled for plain decimal forms: surrounding
whitespace ignored, optional sign, digits with at most one decimal point and
at least one digit in total; other shapes (scientific notation and the named
forms are outside the model) raise ValueError, modelled as `none`. -/
def pyParseFloat (s : String) : Option ℚ :=
  match trimChars s.toList with
  | [] => none
  | c :: cs =>
    let sign : ℚ := if c = '-' then -1 else 1
    let body := if c = '-' ∨ c = '+' then cs else c :: cs
    let ip := body.takeWhile (fun d => d ≠ '.')
    match body.dropWhile (fun d => d ≠ '.') with
    | [] =>
      if ip ≠ [] ∧ ip.all Char.isDigit then some (sign * digitsVal ip)
      else none
    | _ :: fp =>
      if (ip ≠ [] ∨ fp ≠ []) ∧ ip.all Char.isDigit ∧ fp.all Char.isDigit then
        some (sign * (digitsVal ip + digitsVal fp / 10 ^ fp.length))
      else none

/-- Python `str.strip` with the character set `[]` as in
`_get_leagues_helper`: remove leading and trailing brackets. -/
def stripBrackets (cs : List Char) : List Char :=
  ((cs.dropWhile fun c => c = '[' ∨ c = ']').reverse.dropWhile
    fun c => c = '[' ∨ c = ']').reverse

/-- Python `str.split(",")` on a character list: the comma-separated groups;
an empty string yields one empty group. -/
def splitOnComma : List Char → List (List Char)
  | [] => [[]]
  | c :: rest =>
    if c = ',' then [] :: splitOnComma rest
    else
      match splitOnComma rest with
      | [] => [[c]]
      | g :: gs => (c :: g) :: gs

/-- The query-string central_location read of `_get_leagues_helper`:
`req.args.get("central_location", type=str)` is `None` when the parameter is
absent, and calling `.strip` on `None` raises AttributeError; otherwise the
string is stripped of surrounding brackets, split on commas, and each piece
converted with `float`, a failure raising ValueError. -/
def parseLocation : Option String → Except ApiError PyVal
  | none => .error .attributeError
  | some s =>
    match (splitOnComma (stripBrackets s.toList)).mapM
        (fun g => pyParseFloat (String.mk g)) with
    | none => .error .valueError
    | some qs => .ok (.pyList (qs.map PyVal.pyFloat))

/-- The JSON body of a GET `/leagues` request, holding the three fields the
handler reads; `some` of this models a truthy JSON object carrying all three
keys. -/
structure GetBody where
  total_budget : PyVal
  search_radius : PyVal
  central_location : PyVal

/-- A GET `/leagues` request: an optional JSON body and the query-string
parameters. -/
structure GetRequest where
  json : Option GetBody
  args : String → Option String

/-- `_get_leagues_helper` of `src/app.py`: with a JSON body the three fields
pass through unchanged; otherwise total_budget and search_radius are read
from the query string as ints and central_location as a bracket-stripped,
comma-separated float list. -/
def _get_leagues_helper (req : GetRequest) :
    Except ApiError (PyVal × PyVal × PyVal) :=
  match req.json with
  | some j => .ok (j.total_budget, j.search_radius, j.central_location)
  | none =>
    match parseLocation (req.args "central_location") with
    | .error e => .error e
    | .ok cl =>
      .ok (argInt req.args "total_budget", argInt req.args "search_radius",
        cl)

/-- Modelled from the spec: numeric use of a parsed request field inside the
selection routine (`mongo/mongo_interface.py` is not under `src/`); a
non-numeric value such as None raises TypeError when used as a number. -/
def PyVal.toRat : PyVal → Except ApiError ℚ
  | .pyInt n => .ok (n : ℚ)
  | .pyFloat q => .ok q
  | _ => .error .typeError

/-- Modelled from the spec: the selection routine's view of the
central_location value as a coordinate pair, re-validated per spec §4.3. -/
def PyVal.toCoord : PyVal → Except ApiError Coord
  | .pyList xs => _verify_coordinates xs
  | _ => .error .typeError

/-- Message tokens of `error_handling/messages.py` (not under `src/`),
abstracted. -/
inductive Msg where
  | getValueError
  | getAttributeError
  | postValueError
  | pymongoOperationError
deriving DecidableEq, Repr

/-- A rendered HTTP response body: an error message or a selection result. -/
inductive Resp where
  | msg (m : Msg)
  | payload (selected : List League) (remaining : ℚ)

/-- The body of the `try` block of the GET `/leagues` handler: parse the
request, then run the selection over the candidate snapshot. -/
def get_select_leagues_body (dist : Coord → Coord → ℚ)
    (candidates : List League) (req : GetRequest) :
    Except ApiError (List League × ℚ) :=
  match _get_leagues_helper req with
  | .error e => .error e
  | .ok (tb, sr, cl) =>
    match tb.toRat with
    | .error e => .error e
    | .ok b =>
      match sr.toRat with
      | .error e => .error e
      | .ok r =>
        match cl.toCoord with
        | .error e => .error e
        | .ok cc => get_leagues dist candidates b r cc

/-- The GET `/leagues` handler `get_select_leagues` of `src/app.py`:
AttributeError, ValueError and pymongo's OperationFailure are caught and
mapped to 400 responses carrying the corresponding message; a success is a
200 response with the selection; any other exception propagates unhandled
(`Except.error`). -/
def get_select_leagues (dist : Coord → Coord → ℚ) (candidates : List League)
    (req : GetRequest) : Except ApiError (ℕ × Resp) :=
  match get_select_leagues_body dist candidates req with
  | .ok (sel, rem) => .ok (200, .payload sel rem)
  | .error .attributeError => .ok (400, .msg .getAttributeError)
  | .error .valueError => .ok (400, .msg .getValueError)
  | .error .operationFailure => .ok (400, .msg .pymongoOperationError)
  | .error e => .error e

/-- C9: without a JSON body, total_budget and search_radius are read from
the query string as integers — an integer-literal value gives that integer,
any other value (fractional such as "12.5", or absent) gives None rather
than a value or an error — while a JSON body passes the three fields through
unchanged with no coercion. -/
theorem request_parsing (req : GetRequest) (j : GetBody) (k s : String)
    (n : ℤ) :
    (req.json = some j → _get_leagues_helper req =
      .ok (j.total_budget, j.search_radius, j.central_location)) ∧
    (req.args k = some s → pyParseInt s = some n →
      argInt req.args k = .pyInt n) ∧
    (req.args k = some s → pyParseInt s = none →
      argInt req.args k = .pyNone) ∧
    (req.args k = none → argInt req.args k = .pyNone) ∧
    pyParseInt "12.5" = none ∧
    (req.json = none → ∀ tb sr cl,
      _get_leagues_helper req = .ok (tb, sr, cl) →
      tb = argInt req.args "total_budget" ∧
      sr = argInt req.args "search_radius") := by
  refine ⟨?_, ?_, ?_, ?_, by decide, ?_⟩
  · intro hj
    simp [_get_leagues_helper, hj]
  · intro hk hp
    simp [argInt, hk, hp]
  · intro hk hp
    simp [argInt, hk, hp]
  · intro hk
    simp [argInt, hk]
  · intro hj tb sr cl h
    simp only [_get_leagues_helper, hj] at h
    rcases hpl : parseLocation (req.args "central_location") with e | cl'
    · rw [hpl] at h
      exact absurd h (by simp)
    · rw [hpl] at h
      simp only [Except.ok.injEq, Prod.mk.injEq] at h
      exact ⟨h.1.symm, h.2.1.symm⟩

/-- Witness for C9: a JSON request passes its fields through untouched; in a
query-string request "42" is read as 42 for total_budget, the absent
search_radius gives None, and "12.5" is not an integer. -/
theorem request_parsing_witness :
    _get_leagues_helper (GetRequest.mk (some (GetBody.mk (PyVal.pyFloat 5)
        PyVal.pyNone (PyVal.pyStr "x"))) (fun _ => none)) =
      .ok (PyVal.pyFloat 5, PyVal.pyNone, PyVal.pyStr "x") ∧
    argInt (fun q => if q = "total_budget" then some "42" else none)
      "total_budget" = PyVal.pyInt 42 ∧
    argInt (fun q => if q = "total_budget" then some "42" else none)
      "search_radius" = PyVal.pyNone ∧
    pyParseInt "12.5" = none :=
  ⟨(request_parsing
      (GetRequest.mk (some (GetBody.mk (PyVal.pyFloat 5) PyVal.pyNone
        (PyVal.pyStr "x"))) (fun _ => none))
      (GetBody.mk (PyVal.pyFloat 5) PyVal.pyNone (PyVal.pyStr "x"))
      "" "" 0).1 rfl,
    (request_parsing
      (GetRequest.mk none
        (fun q => if q = "total_budget" then some "42" else none))
      (GetBody.mk PyVal.pyNone PyVal.pyNone PyVal.pyNone)
      "total_budget" "42" 42).2.1 (by decide) (by decide),
    (request_parsing
      (GetRequest.mk none
        (fun q => if q = "total_budget" then some "42" else none))
      (GetBody.mk PyVal.pyNone PyVal.pyNone PyVal.pyNone)
      "search_radius" "" 0).2.2.2.1 (by decide),
    (request_parsing
      (GetRequest.mk none (fun _ => none))
      (GetBody.mk PyVal.pyNone PyVal.pyNone PyVal.pyNone)
      "" "" 0).2.2.2.2.1⟩

/-- C10: a GET request without a JSON body that omits the central_location
query parameter yields a 400 response carrying GET_ATTRIBUTE_ERROR: the
AttributeError raised on the missing (None) value is caught inside the
handler and never propagates unhandled. -/
theorem missing_location_handled (dist : Coord → Coord → ℚ)
    (candidates : List League) (req : GetRequest)
    (hjson : req.json = none) (hloc : req.args "central_location" = none) :
    get_select_leagues dist candidates req =
      .ok (400, .msg .getAttributeError) := by
  simp only [get_select_leagues, get_select_leagues_body,
    _get_leagues_helper, hjson, hloc, parseLocation]

/-- Witness for C10: the empty query-string request. -/
theorem missing_location_handled_witness :
    (GetRequest.mk none (fun _ => none)).json = none ∧
    (GetRequest.mk none (fun _ => none)).args "central_location" = none ∧
    get_select_leagues (fun _ _ => 0) []
        (GetRequest.mk none (fun _ => none)) =
      .ok (400, .msg .getAttributeError) :=
  ⟨rfl, rfl,
    missing_location_handled (fun _ _ => 0) []
      (GetRequest.mk none (fun _ => none)) rfl rfl⟩

end Sponsorship
